import Mathlib

/-!
# gunit: the buffering test-control adapter

A shallow embedding of `gunit.go`: the adapter `TWrapper` around a test handle,
the `Fixture` that owns it, and the deferred flush / deferred skip performed by
`finalize`.

Text is `String`.  Operands of the variadic `args ...interface{}` parameters are
values of `Value`.  Everything the adapter does to the outside (a method call on
the wrapped handle, a write on the package-level sink `out`) is recorded, oldest
first, in the ghost field `TWrapper.trace`, so that the number and the order of
these effects can be stated.
-/

namespace gunit

/-- A Go operand passed through `interface{}`: a string, an integer or a boolean. -/
inductive Value
  | str (s : String)
  | int (n : Int)
  | bool (b : Bool)
deriving DecidableEq, Repr

/-- The default rendering of an operand (what the verb `%v` prints). -/
def Value.format : Value → String
  | .str s => s
  | .int n => toString n
  | .bool b => if b then "true" else "false"

/-- Go's `fmt.Sprintln`: the operands in their default rendering, a space between
each two of them, and a line break appended. -/
def Sprintln (args : List Value) : String :=
  " ".intercalate (args.map Value.format) ++ "\n"

/-- Go's `strings.Replace(s, old, new, -1)` for a pattern `old` of one character,
the only use the package makes of it: every occurrence of `old` becomes `new`. -/
def Replace (s : String) (old : Char) (new : String) : String :=
  String.mk (s.data.flatMap fun c => if c = old then new.data else [c])

/-- An effect of the adapter on its surroundings: a call of one of the four
methods of the wrapped handle (interface `T`), or one write on the sink `out`. -/
inductive Event
  | SkipNow
  | Fail
  | Failed
  | Log (args : List Value)
  | Write (p : String)
deriving DecidableEq, Repr

/-- The wrapped handle, an implementation of interface `T` in the manner of
`*testing.T`: `Fail` sets the flag and `Failed` reads it. -/
structure Handle where
  failed : Bool
deriving DecidableEq, Repr

/-- The adapter `TWrapper`: the embedded handle `T`, the buffer `log` and the flag
`skipped`; `trace` is the ghost record of effects. -/
structure TWrapper where
  T : Handle
  log : String
  skipped : Bool
  trace : List Event
deriving DecidableEq, Repr

/-- The fixture: it holds the adapter that `NewFixture` gives it. -/
structure Fixture where
  T : TWrapper
deriving DecidableEq, Repr

/-- `NewTWrapper(t)`: empty buffer, `skipped` at its zero value. -/
def NewTWrapper (t : Handle) : TWrapper :=
  { T := t, log := "", skipped := false, trace := [] }

/-- `NewFixture(t)`. -/
def NewFixture (t : Handle) : Fixture :=
  { T := NewTWrapper t }

/-- `self.T.Fail()`, promoted from the embedded handle. -/
def TWrapper.Fail (self : TWrapper) : TWrapper :=
  { self with T := { failed := true }, trace := self.trace ++ [Event.Fail] }

/-- `self.T.Failed()`, promoted from the embedded handle: the flag, and the
adapter with the call recorded. -/
def TWrapper.Failed (self : TWrapper) : Bool × TWrapper :=
  (self.T.failed, { self with trace := self.trace ++ [Event.Failed] })

/-- `self.T.SkipNow()` on the embedded handle. -/
def TWrapper.SkipNow (self : TWrapper) : TWrapper :=
  { self with trace := self.trace ++ [Event.SkipNow] }

/-- `fmt.Fprintln(out, s)`: one write of the rendered line on the sink. -/
def Fprintln (self : TWrapper) (s : String) : TWrapper :=
  { self with trace := self.trace ++ [Event.Write (Sprintln [Value.str s])] }

/-- `TWrapper.Log`. -/
def TWrapper.Log (self : TWrapper) (args : List Value) : TWrapper :=
  { self with log := self.log ++ ("\t" ++ Sprintln args) }

/-- `TWrapper.Logf`; `Sprintf` is Go's `fmt.Sprintf`. -/
def TWrapper.Logf (Sprintf : String → List Value → String) (self : TWrapper)
    (message : String) (args : List Value) : TWrapper :=
  { self with log := self.log ++ ("\t" ++ Sprintf message args) }

/-- `TWrapper.Error`. -/
def TWrapper.Error (self : TWrapper) (args : List Value) : TWrapper :=
  (self.Log args).Fail

/-- `TWrapper.Errorf`. -/
def TWrapper.Errorf (Sprintf : String → List Value → String) (self : TWrapper)
    (message : String) (args : List Value) : TWrapper :=
  (self.Logf Sprintf message args).Fail

/-- `TWrapper.Skip`. -/
def TWrapper.Skip (self : TWrapper) (args : List Value) : TWrapper :=
  { self.Log args with skipped := true }

/-- `TWrapper.Skipf`. -/
def TWrapper.Skipf (Sprintf : String → List Value → String) (self : TWrapper)
    (message : String) (args : List Value) : TWrapper :=
  { self.Logf Sprintf message args with skipped := true }

/-- `TWrapper.finalize`; `verbose` is the package-level flag.  The condition
`verbose || self.T.Failed()` short-circuits: `Failed` is called only when
`verbose` is off. -/
def TWrapper.finalize (verbose : Bool) (self : TWrapper) : TWrapper :=
  let c : Bool × TWrapper := if verbose then (true, self) else self.Failed
  let flushed : TWrapper := if c.1 then Fprintln c.2 c.2.log else c.2
  if flushed.skipped then flushed.SkipNow else flushed

/-- Modelled from the spec: `assertions.So` of the assertion library, which calls
the assertion function and reports success exactly when the description it
returns is empty. -/
def assertions_So (actual : Value) (assert : Value → List Value → String)
    (expected : List Value) : Bool × String :=
  let result := assert actual expected
  (result.length == 0, result)

/-- `Fixture.So`. -/
def Fixture.So (self : Fixture) (actual : Value)
    (assert : Value → List Value → String) (expected : List Value) : Fixture :=
  let r := assertions_So actual assert expected
  if !r.1 then
    { T := self.T.Fail.Log [Value.str ("\t" ++ Replace r.2 '\n' "\n\t\t")] }
  else self

/-- `Fixture.Finalize`. -/
def Fixture.Finalize (verbose : Bool) (self : Fixture) : Fixture :=
  { T := self.T.finalize verbose }

/-- One call made by a test method, on the adapter or through the fixture. -/
inductive Call
  | Log (args : List Value)
  | Logf (message : String) (args : List Value)
  | Error (args : List Value)
  | Errorf (message : String) (args : List Value)
  | Skip (args : List Value)
  | Skipf (message : String) (args : List Value)
  | So (actual : Value) (assert : Value → List Value → String) (expected : List Value)

/-- The effect of one call on the fixture. -/
def Fixture.step (Sprintf : String → List Value → String) (self : Fixture) :
    Call → Fixture
  | .Log args => { T := self.T.Log args }
  | .Logf message args => { T := self.T.Logf Sprintf message args }
  | .Error args => { T := self.T.Error args }
  | .Errorf message args => { T := self.T.Errorf Sprintf message args }
  | .Skip args => { T := self.T.Skip args }
  | .Skipf message args => { T := self.T.Skipf Sprintf message args }
  | .So actual assert expected => self.So actual assert expected

/-- The calls of a sequence, made one after the other. -/
def Fixture.run (Sprintf : String → List Value → String) (self : Fixture)
    (calls : List Call) : Fixture :=
  calls.foldl (Fixture.step Sprintf) self

/-- Whether the call is `Skip` or `Skipf`. -/
def Call.isSkip : Call → Bool
  | .Skip _ => true
  | .Skipf _ _ => true
  | _ => false

/-- Whether the call is `Error` or `Errorf`. -/
def Call.isError : Call → Bool
  | .Error _ => true
  | .Errorf _ _ => true
  | _ => false

/-- Whether the call is `Fixture.So`. -/
def Call.isSo : Call → Bool
  | .So _ _ _ => true
  | _ => false

/-- Whether the call is `Fixture.So` with an assertion that fails. -/
def Call.isFailingSo : Call → Bool
  | .So actual assert expected => assert actual expected != ""
  | _ => false

/-- The number of `SkipNow` calls in a record of effects. -/
def skipNowCount (trace : List Event) : Nat :=
  trace.count Event.SkipNow

/-- The writes the sink `out` has received, oldest first. -/
def sinkWrites (trace : List Event) : List String :=
  trace.filterMap fun e => match e with
    | .Write p => some p
    | _ => none

/-- The lines of a text: the pieces between its line breaks. -/
def splitLines : List Char → List (List Char)
  | [] => [[]]
  | c :: cs =>
    if c = '\n' then [] :: splitLines cs
    else match splitLines cs with
      | [] => [[c]]
      | l :: ls => (c :: l) :: ls

/-- The lines of a description. -/
def lines (d : String) : List String :=
  (splitLines d.data).map String.mk

/-- The buffer entry of a failed assertion with description `d`, as the claim
describes it: each line of `d` behind two tabs, each followed by a line break. -/
def soEntry (d : String) : String :=
  String.join ((lines d).map fun l => "\t\t" ++ l ++ "\n")

/-- The text a call appends to the buffer. -/
def Call.entry (Sprintf : String → List Value → String) : Call → String
  | .Log args => "\t" ++ Sprintln args
  | .Logf message args => "\t" ++ Sprintf message args
  | .Error args => "\t" ++ Sprintln args
  | .Errorf message args => "\t" ++ Sprintf message args
  | .Skip args => "\t" ++ Sprintln args
  | .Skipf message args => "\t" ++ Sprintf message args
  | .So actual assert expected =>
    if assert actual expected = "" then "" else soEntry (assert actual expected)

/-- The descriptions of the failed assertions among the calls, in call order. -/
def failureDescriptions : List Call → List String
  | [] => []
  | .So actual assert expected :: cs =>
    if assert actual expected = "" then failureDescriptions cs
    else assert actual expected :: failureDescriptions cs
  | _ :: cs => failureDescriptions cs

/-- Whether the call marks the handle failed: `Error`, `Errorf`, or a
`Fixture.So` whose assertion fails. -/
def Call.marksFailed (c : Call) : Bool :=
  c.isError || c.isFailingSo

/-- An assertion function in the manner of `should.Equal`: it passes when the one
expected operand equals the actual one. -/
def equals (actual : Value) (expected : List Value) : String :=
  if expected = [actual] then ""
  else "Expected: " ++ " ".intercalate (expected.map Value.format)
    ++ " Actual: " ++ actual.format

/-- A `Sprintf` for formats without verbs, which it returns as they are. -/
def plainSprintf (message : String) (_ : List Value) : String :=
  message

/-- The end of the process by `os.Exit`: the status, and the diagnostic that
`exit` wrote on the standard error stream just before. -/
structure Halt where
  status : Int
  diagnostic : String
deriving DecidableEq, Repr

/-- The function `exit` of the package: `fmt.Fprintf(os.Stderr, message, args...)`,
then `os.Exit(status)`.  The process ends there, so the result is an error and
what follows the call is not run. -/
def exit (Sprintf : String → List Value → String) (status : Int) (message : String)
    (args : List Value) : Except Halt Unit :=
  Except.error { status := status, diagnostic := Sprintf message args }

/-- `Validate`.  `Caller` is what `runtime.Caller(1)` returns, the file and `ok`;
`Dir` is `filepath.Dir`; `Checksum` is `generate.Checksum`, which returns the
digest and the error, `none` for `nil` and otherwise the text of `err.Error()`.
A normal return is `Except.ok ()`: nothing was written. -/
def Validate (Sprintf : String → List Value → String) (Caller : String × Bool)
    (Dir : String → String) (Checksum : String → String × Option String)
    (checksum : String) : Except Halt Unit := do
  let (file, ok) := Caller
  if !ok then
    exit Sprintf 1 "Unable to resolve the test file from runtime.Caller(...)." []
  let (current, err) := Checksum (Dir file)
  match err with
  | some text =>
    exit Sprintf 1 "Could not calculate checksum of current go files. Error: %s"
      [Value.str text]
  | none => pure ()
  if checksum != current then
    exit Sprintf 1 "The checksum provided (%d) does not match the current file listing (%d). Please re-run the `gunit` command and try again."
      [Value.str checksum, Value.str current]

/-! ## Text lemmas -/

theorem Sprintln_single (s : String) : Sprintln [Value.str s] = s ++ "\n" := by
  simp [Sprintln, Value.format, String.intercalate, String.intercalate.go]

theorem length_eq_zero_iff (s : String) : (s.length == 0) = true ↔ s = "" := by
  constructor
  · intro h
    obtain ⟨l⟩ := s
    have h1 : l.length = 0 := eq_of_beq h
    rw [List.length_eq_zero.mp h1]
  · rintro rfl
    rfl

theorem splitLines_ne_nil (cs : List Char) : splitLines cs ≠ [] := by
  cases cs with
  | nil => simp [splitLines]
  | cons c cs =>
    by_cases h : c = '\n'
    · simp [splitLines, h]
    · cases hl : splitLines cs <;> simp [splitLines, h, hl]

theorem indent_flatMap (cs : List Char) :
    '\t' :: '\t' :: ((cs.flatMap fun c => if c = '\n' then ['\n', '\t', '\t'] else [c])
      ++ ['\n'])
      = ((splitLines cs).map fun l => '\t' :: '\t' :: (l ++ ['\n'])).flatten := by
  induction cs with
  | nil => simp [splitLines]
  | cons c cs ih =>
    by_cases h : c = '\n'
    · simp only [List.flatMap_cons, h, if_true, splitLines, List.map_cons, List.flatten_cons]
      rw [← ih]
      simp
    · cases hl : splitLines cs with
      | nil => exact absurd hl (splitLines_ne_nil cs)
      | cons l ls =>
        rw [hl] at ih
        simp only [List.map_cons, List.flatten_cons, List.cons_append, List.cons.injEq,
          true_and] at ih
        simp only [List.flatMap_cons, h, if_false, splitLines, hl, List.map_cons,
          List.flatten_cons, List.cons_append, List.singleton_append, List.nil_append]
        rw [ih]

/-- The text `Fixture.So` hands to `Log`, once `Log` has put its tab in front and
`Sprintln` its line break behind, is the entry of the description. -/
theorem So_text_eq_soEntry (d : String) :
    "\t" ++ Sprintln [Value.str ("\t" ++ Replace d '\n' "\n\t\t")] = soEntry d := by
  rw [Sprintln_single]
  apply String.ext
  have h := indent_flatMap d.data
  simp only [soEntry, lines, String.data_join, String.data_append, Replace, List.map_map]
  simpa [Function.comp_def] using h

/-- The lines of a text, put together again with line breaks, are the text. -/
theorem splitLines_intercalate (cs : List Char) :
    ['\n'].intercalate (splitLines cs) = cs := by
  induction cs with
  | nil => rfl
  | cons c cs ih =>
    cases hl : splitLines cs with
    | nil => exact absurd hl (splitLines_ne_nil cs)
    | cons l ls =>
      rw [hl] at ih
      by_cases h : c = '\n'
      · simp only [splitLines, h, if_true, hl]
        simp only [List.intercalate, List.intersperse, List.flatten_cons,
          List.nil_append] at ih ⊢
        rw [ih]
        rfl
      · simp only [splitLines, h, if_false, hl]
        cases ls with
        | nil =>
          simp only [List.intercalate, List.intersperse, List.flatten_cons,
            List.flatten_nil, List.append_nil] at ih ⊢
          rw [ih]
        | cons l2 ls2 =>
          simp only [List.intercalate, List.intersperse, List.flatten_cons,
            List.cons_append] at ih ⊢
          rw [ih]

/-- No line of a text holds a line break. -/
theorem splitLines_no_break (cs : List Char) :
    ∀ l ∈ splitLines cs, '\n' ∉ l := by
  induction cs with
  | nil => simp [splitLines]
  | cons c cs ih =>
    cases hl : splitLines cs with
    | nil => exact absurd hl (splitLines_ne_nil cs)
    | cons l ls =>
      rw [hl] at ih
      by_cases h : c = '\n'
      · simp only [splitLines, h, if_true, hl]
        intro x hx
        rcases List.mem_cons.mp hx with rfl | hx
        · simp
        · exact ih x hx
      · simp only [splitLines, h, if_false, hl]
        intro x hx
        rcases List.mem_cons.mp hx with rfl | hx
        · have := ih l (List.mem_cons_self _ _)
          simp only [List.mem_cons, not_or]
          exact ⟨fun e => h e.symm, this⟩
        · exact ih x (List.mem_cons_of_mem _ hx)

/-! ## One call, then a sequence of calls -/

theorem So_pass (f : Fixture) (actual : Value) (assert : Value → List Value → String)
    (expected : List Value) (h : assert actual expected = "") :
    f.So actual assert expected = f := by
  simp [Fixture.So, assertions_So, h]

theorem So_fail (f : Fixture) (actual : Value) (assert : Value → List Value → String)
    (expected : List Value) (h : assert actual expected ≠ "") :
    f.So actual assert expected
      = { T := { T := { failed := true },
                 log := f.T.log ++ soEntry (assert actual expected),
                 skipped := f.T.skipped,
                 trace := f.T.trace ++ [Event.Fail] } } := by
  have hl : ((assert actual expected).length == 0) = false := by
    cases hb : ((assert actual expected).length == 0)
    · rfl
    · exact absurd ((length_eq_zero_iff _).mp hb) h
  simp only [Fixture.So, assertions_So, hl, Bool.not_false, if_true, TWrapper.Log,
    TWrapper.Fail, So_text_eq_soEntry]

theorem step_log (Sprintf : String → List Value → String) (f : Fixture) (c : Call) :
    (f.step Sprintf c).T.log = f.T.log ++ c.entry Sprintf := by
  cases c with
  | So actual assert expected =>
    by_cases h : assert actual expected = ""
    · simp [Fixture.step, So_pass, Call.entry, h]
    · simp [Fixture.step, So_fail, Call.entry, h]
  | _ => rfl

theorem step_trace (Sprintf : String → List Value → String) (f : Fixture) (c : Call) :
    (f.step Sprintf c).T.trace
      = f.T.trace ++ (if c.marksFailed then [Event.Fail] else []) := by
  cases c with
  | So actual assert expected =>
    by_cases h : assert actual expected = ""
    · simp [Fixture.step, So_pass, Call.marksFailed, Call.isError, Call.isFailingSo, h]
    · simp [Fixture.step, So_fail, Call.marksFailed, Call.isError, Call.isFailingSo, h]
  | _ => simp [Fixture.step, TWrapper.Log, TWrapper.Logf, TWrapper.Error, TWrapper.Errorf,
      TWrapper.Skip, TWrapper.Skipf, TWrapper.Fail, Call.marksFailed, Call.isError,
      Call.isFailingSo]

theorem step_skipped (Sprintf : String → List Value → String) (f : Fixture) (c : Call) :
    (f.step Sprintf c).T.skipped = (f.T.skipped || c.isSkip) := by
  cases c with
  | So actual assert expected =>
    by_cases h : assert actual expected = ""
    · simp [Fixture.step, So_pass, Call.isSkip, h]
    · simp [Fixture.step, So_fail, Call.isSkip, h]
  | _ => simp [Fixture.step, TWrapper.Log, TWrapper.Logf, TWrapper.Error, TWrapper.Errorf,
      TWrapper.Skip, TWrapper.Skipf, TWrapper.Fail, Call.isSkip]

theorem step_failed (Sprintf : String → List Value → String) (f : Fixture) (c : Call) :
    (f.step Sprintf c).T.T.failed = (f.T.T.failed || c.marksFailed) := by
  cases c with
  | So actual assert expected =>
    by_cases h : assert actual expected = ""
    · simp [Fixture.step, So_pass, Call.marksFailed, Call.isError, Call.isFailingSo, h]
    · simp [Fixture.step, So_fail, Call.marksFailed, Call.isError, Call.isFailingSo, h]
  | _ => simp [Fixture.step, TWrapper.Log, TWrapper.Logf, TWrapper.Error, TWrapper.Errorf,
      TWrapper.Skip, TWrapper.Skipf, TWrapper.Fail, Call.marksFailed, Call.isError,
      Call.isFailingSo]

theorem run_nil (Sprintf : String → List Value → String) (f : Fixture) :
    f.run Sprintf [] = f := rfl

theorem run_cons (Sprintf : String → List Value → String) (f : Fixture) (c : Call)
    (cs : List Call) : f.run Sprintf (c :: cs) = (f.step Sprintf c).run Sprintf cs := rfl

theorem join_cons (s : String) (ss : List String) :
    String.join (s :: ss) = s ++ String.join ss := by
  apply String.ext
  simp

theorem run_log (Sprintf : String → List Value → String) (f : Fixture)
    (calls : List Call) :
    (f.run Sprintf calls).T.log
      = f.T.log ++ String.join (calls.map (Call.entry Sprintf)) := by
  induction calls generalizing f with
  | nil => simp [run_nil, String.join]
  | cons c cs ih =>
    rw [run_cons, ih, step_log, List.map_cons, join_cons, String.append_assoc]

theorem run_trace (Sprintf : String → List Value → String) (f : Fixture)
    (calls : List Call) :
    (f.run Sprintf calls).T.trace
      = f.T.trace ++ (calls.filter Call.marksFailed).map fun _ => Event.Fail := by
  induction calls generalizing f with
  | nil => simp [run_nil]
  | cons c cs ih =>
    rw [run_cons, ih, step_trace]
    cases h : c.marksFailed <;> simp [List.filter_cons, h]

theorem run_skipped (Sprintf : String → List Value → String) (f : Fixture)
    (calls : List Call) :
    (f.run Sprintf calls).T.skipped = (f.T.skipped || calls.any Call.isSkip) := by
  induction calls generalizing f with
  | nil => simp [run_nil]
  | cons c cs ih => rw [run_cons, ih, step_skipped, List.any_cons, Bool.or_assoc]

theorem run_failed (Sprintf : String → List Value → String) (f : Fixture)
    (calls : List Call) :
    (f.run Sprintf calls).T.T.failed = (f.T.T.failed || calls.any Call.marksFailed) := by
  induction calls generalizing f with
  | nil => simp [run_nil]
  | cons c cs ih => rw [run_cons, ih, step_failed, List.any_cons, Bool.or_assoc]

/-- In a sequence of `Fixture.So` calls the entries are those of the failed
assertions. -/
theorem entries_of_So_calls (Sprintf : String → List Value → String) (calls : List Call)
    (h : ∀ c ∈ calls, c.isSo = true) :
    String.join (calls.map (Call.entry Sprintf))
      = String.join ((failureDescriptions calls).map soEntry) := by
  induction calls with
  | nil => rfl
  | cons c cs ih =>
    have ih1 := ih fun x hx => h x (List.mem_cons_of_mem _ hx)
    have hc := h c (List.mem_cons_self _ _)
    cases c with
    | So actual assert expected =>
      by_cases hd : assert actual expected = ""
      · simp [failureDescriptions, Call.entry, hd, join_cons, ih1]
      · simp [failureDescriptions, Call.entry, hd, join_cons, ih1]
    | _ => simp [Call.isSo] at hc

/-! ## finalize -/

/-- What `finalize` does, effect by effect: the `Failed` query unless `verbose`
decides alone, the write of the buffer when the condition holds, the deferred
`SkipNow`; the handle's flag, the buffer and `skipped` stay. -/
theorem finalize_eq (verbose : Bool) (w : TWrapper) :
    w.finalize verbose
      = { T := w.T, log := w.log, skipped := w.skipped,
          trace := w.trace ++ ((if verbose then [] else [Event.Failed])
            ++ ((if verbose || w.T.failed then [Event.Write (w.log ++ "\n")] else [])
            ++ (if w.skipped then [Event.SkipNow] else []))) } := by
  cases verbose <;> cases hf : w.T.failed <;> cases hs : w.skipped <;>
    simp [TWrapper.finalize, TWrapper.Failed, TWrapper.SkipNow, Fprintln,
      Sprintln_single, hf, hs]

theorem skipNowCount_append (xs ys : List Event) :
    skipNowCount (xs ++ ys) = skipNowCount xs + skipNowCount ys := by
  simp [skipNowCount]

theorem sinkWrites_append (xs ys : List Event) :
    sinkWrites (xs ++ ys) = sinkWrites xs ++ sinkWrites ys := by
  simp [sinkWrites]

theorem skipNowCount_fails (n : List Call) :
    skipNowCount (n.map fun _ => Event.Fail) = 0 := by
  induction n with
  | nil => rfl
  | cons c cs ih => simpa [skipNowCount, List.count_cons] using ih

theorem sinkWrites_fails (n : List Call) :
    sinkWrites (n.map fun _ => Event.Fail) = [] := by
  induction n with
  | nil => rfl
  | cons c cs ih => simp [sinkWrites]

theorem skipNowCount_finalize (verbose : Bool) (w : TWrapper) :
    skipNowCount (w.finalize verbose).trace
      = skipNowCount w.trace + (if w.skipped then 1 else 0) := by
  rw [finalize_eq]
  cases verbose <;> cases w.T.failed <;> cases w.skipped <;>
    simp [skipNowCount, List.count_cons]

theorem sinkWrites_finalize (verbose : Bool) (w : TWrapper) :
    sinkWrites (w.finalize verbose).trace
      = sinkWrites w.trace
        ++ (if verbose || w.T.failed then [w.log ++ "\n"] else []) := by
  rw [finalize_eq]
  cases verbose <;> cases w.T.failed <;> cases w.skipped <;> simp [sinkWrites]

/-! ## The claims -/

/-- C1: whatever calls of `Log`, `Logf`, `Error`, `Errorf`, `Skip`, `Skipf` and
`Fixture.So` are made on a fresh adapter, `SkipNow` has not been called on the
handle when they are done; once `finalize` has run, it has been called exactly
once if one of the calls was `Skip` or `Skipf`, and not at all otherwise. -/
theorem skipNow_deferred_to_finalize (Sprintf : String → List Value → String)
    (t : Handle) (verbose : Bool) (calls : List Call) :
    skipNowCount ((NewFixture t).run Sprintf calls).T.trace = 0 ∧
    skipNowCount (((NewFixture t).run Sprintf calls).Finalize verbose).T.trace
      = if calls.any Call.isSkip then 1 else 0 := by
  have h0 : skipNowCount ((NewFixture t).run Sprintf calls).T.trace = 0 := by
    rw [run_trace, skipNowCount_append, skipNowCount_fails]
    rfl
  refine ⟨h0, ?_⟩
  simp only [Fixture.Finalize]
  rw [skipNowCount_finalize, h0, run_skipped]
  simp [NewFixture, NewTWrapper]

/-- C2: after any calls on a fresh adapter, if the handle's failure flag is
false when `finalize` runs and `verbose` is off, the sink has received no write
at all. -/
theorem quiet_on_success (Sprintf : String → List Value → String) (t : Handle)
    (calls : List Call)
    (h : ((NewFixture t).run Sprintf calls).T.T.failed = false) :
    sinkWrites (((NewFixture t).run Sprintf calls).Finalize false).T.trace = [] := by
  simp only [Fixture.Finalize]
  rw [sinkWrites_finalize, h, run_trace, sinkWrites_append, sinkWrites_fails]
  rfl

theorem quiet_on_success_witness :
    ((NewFixture { failed := false }).run plainSprintf
        [Call.Log [Value.str "a", Value.int 1], Call.Skipf "later" []]).T.T.failed = false ∧
    sinkWrites (((NewFixture { failed := false }).run plainSprintf
        [Call.Log [Value.str "a", Value.int 1], Call.Skipf "later" []]).Finalize false).T.trace
      = [] :=
  ⟨by decide, quiet_on_success plainSprintf { failed := false }
    [Call.Log [Value.str "a", Value.int 1], Call.Skipf "later" []] (by decide)⟩

/-- C3: after a sequence of calls on a fresh adapter that contains an `Error` or
an `Errorf`, with `verbose` on or off, `finalize` leaves the handle's failure
flag true and the sink with exactly one write: the entries of all the calls, in
call order, and the line break `Fprintln` adds. -/
theorem error_flushes_one_block (Sprintf : String → List Value → String) (t : Handle)
    (verbose : Bool) (calls : List Call) (h : calls.any Call.isError = true) :
    (((NewFixture t).run Sprintf calls).Finalize verbose).T.T.failed = true ∧
    sinkWrites (((NewFixture t).run Sprintf calls).Finalize verbose).T.trace
      = [String.join (calls.map (Call.entry Sprintf)) ++ "\n"] := by
  have hm : calls.any Call.marksFailed = true := by
    rw [List.any_eq_true] at h ⊢
    obtain ⟨c, hc, he⟩ := h
    exact ⟨c, hc, by simp [Call.marksFailed, he]⟩
  have hf : ((NewFixture t).run Sprintf calls).T.T.failed = true := by
    rw [run_failed, hm, Bool.or_true]
  simp only [Fixture.Finalize]
  refine ⟨by rw [finalize_eq]; exact hf, ?_⟩
  rw [sinkWrites_finalize, hf, run_trace, sinkWrites_append, sinkWrites_fails, run_log]
  simp [NewFixture, NewTWrapper, sinkWrites]

theorem error_flushes_one_block_witness :
    [Call.Log [Value.str "a"], Call.Errorf "b" [], Call.Skip [Value.int 3]].any Call.isError
      = true ∧
    sinkWrites (((NewFixture { failed := false }).run plainSprintf
        [Call.Log [Value.str "a"], Call.Errorf "b" [], Call.Skip [Value.int 3]]).Finalize
          false).T.trace = ["\ta\n\tb\t3\n\n"] :=
  ⟨by decide, by
    rw [(error_flushes_one_block plainSprintf { failed := false } false
      [Call.Log [Value.str "a"], Call.Errorf "b" [], Call.Skip [Value.int 3]]
      (by decide)).2]
    decide⟩

/-- C4: one `finalize`, in any adapter state, writes to the sink exactly when
`verbose` is on or the handle reports failed; it then makes one write, the whole
buffer and a line break, and otherwise leaves the sink as it was. -/
theorem finalize_flush_iff (verbose : Bool) (w : TWrapper) :
    sinkWrites (w.finalize verbose).trace
      = if verbose || w.T.failed then sinkWrites w.trace ++ [w.log ++ "\n"]
        else sinkWrites w.trace := by
  rw [sinkWrites_finalize]
  cases verbose <;> cases w.T.failed <;> simp

/-- C5: `Fixture.So` with an assertion that returns the empty description leaves
the fixture as it was: the buffer, `skipped`, the handle's failure flag, and
the record of calls on the handle, to which nothing is added. -/
theorem So_pass_no_effect (f : Fixture) (actual : Value)
    (assert : Value → List Value → String) (expected : List Value)
    (h : assert actual expected = "") :
    (f.So actual assert expected).T.log = f.T.log ∧
    (f.So actual assert expected).T.skipped = f.T.skipped ∧
    (f.So actual assert expected).T.T.failed = f.T.T.failed ∧
    (f.So actual assert expected).T.trace = f.T.trace := by
  rw [So_pass f actual assert expected h]
  exact ⟨rfl, rfl, rfl, rfl⟩

theorem So_pass_no_effect_witness :
    equals (Value.int 4) [Value.int 4] = "" ∧
    ((NewFixture { failed := false }).So (Value.int 4) equals [Value.int 4]).T.trace = [] :=
  ⟨by decide, (So_pass_no_effect (NewFixture { failed := false }) (Value.int 4) equals
    [Value.int 4] (by decide)).2.2.2⟩

/-- C6: `Fixture.So` with an assertion that returns a non-empty description `d`
sets the handle's failure flag by one `Fail` call, calls nothing else on the
handle, and appends one entry to the buffer: every line of `d`, the first one
too, behind two tabs and followed by a line break. -/
theorem So_fail_entry (f : Fixture) (actual : Value)
    (assert : Value → List Value → String) (expected : List Value)
    (h : assert actual expected ≠ "") :
    (f.So actual assert expected).T.T.failed = true ∧
    (f.So actual assert expected).T.trace = f.T.trace ++ [Event.Fail] ∧
    (f.So actual assert expected).T.skipped = f.T.skipped ∧
    (f.So actual assert expected).T.log
      = f.T.log ++ String.join ((lines (assert actual expected)).map
          fun l => "\t\t" ++ l ++ "\n") := by
  rw [So_fail f actual assert expected h]
  exact ⟨rfl, rfl, rfl, rfl⟩

theorem So_fail_entry_witness :
    equals (Value.int 4) [Value.int 5] ≠ "" ∧
    ((NewFixture { failed := false }).So (Value.int 4) equals [Value.int 5]).T.log
      = "\t\tExpected: 5 Actual: 4\n" :=
  ⟨by decide, by
    rw [(So_fail_entry (NewFixture { failed := false }) (Value.int 4) equals
      [Value.int 5] (by decide)).2.2.2]
    decide⟩

/-- C7: after a sequence of `Fixture.So` calls on a fresh fixture, one of which
fails, and `Finalize`, with `verbose` on or off: the failure flag is true, the
sink has received one block, which holds the entry of each failed assertion in
call order and nothing for the passed ones, and `SkipNow` was never called. -/
theorem failing_So_scenario (Sprintf : String → List Value → String) (t : Handle)
    (verbose : Bool) (calls : List Call) (hso : ∀ c ∈ calls, c.isSo = true)
    (hfail : calls.any Call.isFailingSo = true) :
    (((NewFixture t).run Sprintf calls).Finalize verbose).T.T.failed = true ∧
    sinkWrites (((NewFixture t).run Sprintf calls).Finalize verbose).T.trace
      = [String.join ((failureDescriptions calls).map soEntry) ++ "\n"] ∧
    skipNowCount (((NewFixture t).run Sprintf calls).Finalize verbose).T.trace = 0 := by
  have hm : calls.any Call.marksFailed = true := by
    rw [List.any_eq_true] at hfail ⊢
    obtain ⟨c, hc, he⟩ := hfail
    exact ⟨c, hc, by simp [Call.marksFailed, he]⟩
  have hf : ((NewFixture t).run Sprintf calls).T.T.failed = true := by
    rw [run_failed, hm, Bool.or_true]
  have hs : calls.any Call.isSkip = false := by
    rw [Bool.eq_false_iff]
    intro hany
    obtain ⟨c, hc, he⟩ := List.any_eq_true.mp hany
    have := hso c hc
    cases c <;> simp [Call.isSo, Call.isSkip] at this he
  simp only [Fixture.Finalize]
  refine ⟨by rw [finalize_eq]; exact hf, ?_, ?_⟩
  · rw [sinkWrites_finalize, hf, run_trace, sinkWrites_append, sinkWrites_fails, run_log,
      entries_of_So_calls Sprintf calls hso]
    simp [NewFixture, NewTWrapper, sinkWrites]
  · rw [skipNowCount_finalize, run_trace, skipNowCount_append, skipNowCount_fails,
      run_skipped, hs]
    simp [NewFixture, NewTWrapper, skipNowCount]

theorem failing_So_scenario_witness :
    (∀ c ∈ [Call.So (Value.int (2 + 2)) equals [Value.int 4],
        Call.So (Value.int (2 + 2)) equals [Value.int 5]], c.isSo = true) ∧
    [Call.So (Value.int (2 + 2)) equals [Value.int 4],
        Call.So (Value.int (2 + 2)) equals [Value.int 5]].any Call.isFailingSo = true ∧
    sinkWrites (((NewFixture { failed := false }).run plainSprintf
        [Call.So (Value.int (2 + 2)) equals [Value.int 4],
          Call.So (Value.int (2 + 2)) equals [Value.int 5]]).Finalize false).T.trace
      = ["\t\tExpected: 5 Actual: 4\n\n"] :=
  ⟨by simp [Call.isSo], by decide, by
    rw [(failing_So_scenario plainSprintf { failed := false } false
      [Call.So (Value.int (2 + 2)) equals [Value.int 4],
        Call.So (Value.int (2 + 2)) equals [Value.int 5]]
      (by simp [Call.isSo]) (by decide)).2.1]
    decide⟩

/-- C8: `Skip("not ready")`, two `Fixture.So` calls, then `Finalize`.  Both `So`
calls take effect: the buffer is the skip entry followed by their entries, and
the failure flag is set if one of them fails.  `SkipNow` is the last thing done
and is called once: what `finalize` writes to the sink comes before it. -/
theorem skip_then_So_scenario (Sprintf : String → List Value → String) (t : Handle)
    (verbose : Bool) (a1 a2 : Value) (as1 as2 : Value → List Value → String)
    (e1 e2 : List Value) :
    ((NewFixture t).run Sprintf
        [Call.Skip [Value.str "not ready"], Call.So a1 as1 e1, Call.So a2 as2 e2]).T.log
      = "\tnot ready\n" ++ (Call.So a1 as1 e1).entry Sprintf
          ++ (Call.So a2 as2 e2).entry Sprintf ∧
    ((NewFixture t).run Sprintf
        [Call.Skip [Value.str "not ready"], Call.So a1 as1 e1, Call.So a2 as2 e2]).T.T.failed
      = (t.failed || (Call.So a1 as1 e1).isFailingSo || (Call.So a2 as2 e2).isFailingSo) ∧
    ∃ before : List Event,
      (((NewFixture t).run Sprintf
        [Call.Skip [Value.str "not ready"], Call.So a1 as1 e1,
          Call.So a2 as2 e2]).Finalize verbose).T.trace = before ++ [Event.SkipNow] ∧
      skipNowCount before = 0 ∧
      sinkWrites before
        = if verbose || ((NewFixture t).run Sprintf
            [Call.Skip [Value.str "not ready"], Call.So a1 as1 e1,
              Call.So a2 as2 e2]).T.T.failed
          then [((NewFixture t).run Sprintf
            [Call.Skip [Value.str "not ready"], Call.So a1 as1 e1,
              Call.So a2 as2 e2]).T.log ++ "\n"]
          else [] := by
  refine ⟨?_, ?_, ?_⟩
  · rw [run_log]
    simp only [List.map_cons, List.map_nil, join_cons, NewFixture, NewTWrapper]
    apply String.ext
    simp [Call.entry, Sprintln, Value.format, String.intercalate, String.intercalate.go,
      String.join]
  · rw [run_failed]
    simp [NewFixture, NewTWrapper, Call.marksFailed, Call.isError, Call.isFailingSo,
      Bool.or_assoc]
  · have hsk : ((NewFixture t).run Sprintf
        [Call.Skip [Value.str "not ready"], Call.So a1 as1 e1,
          Call.So a2 as2 e2]).T.skipped = true := by
      rw [run_skipped]
      simp [Call.isSkip]
    simp only [Fixture.Finalize]
    rw [finalize_eq, hsk]
    simp only [if_true, ← List.append_assoc]
    refine ⟨_, rfl, ?_, ?_⟩
    · rw [skipNowCount_append, skipNowCount_append, run_trace, skipNowCount_append,
        skipNowCount_fails]
      cases verbose <;>
        cases ((NewFixture t).run Sprintf
          [Call.Skip [Value.str "not ready"], Call.So a1 as1 e1,
            Call.So a2 as2 e2]).T.T.failed <;>
        simp [skipNowCount, NewFixture, NewTWrapper]
    · rw [sinkWrites_append, sinkWrites_append, run_trace, sinkWrites_append,
        sinkWrites_fails]
      cases verbose <;>
        cases ((NewFixture t).run Sprintf
          [Call.Skip [Value.str "not ready"], Call.So a1 as1 e1,
            Call.So a2 as2 e2]).T.T.failed <;>
        simp [sinkWrites, NewFixture, NewTWrapper]

/-- C9: the buffer only grows at its end.  Each call, and `Finalize` too, leaves
the old content as a prefix of the new one: a call appends its entry, `Finalize`
appends nothing.  So after any sequence of calls on a fresh fixture the buffer
is the entries of the calls one after the other, in call order. -/
theorem buffer_append_only (Sprintf : String → List Value → String) (f : Fixture)
    (c : Call) (verbose : Bool) (t : Handle) (calls : List Call) :
    f.T.log.data <+: (f.step Sprintf c).T.log.data ∧
    (f.step Sprintf c).T.log = f.T.log ++ c.entry Sprintf ∧
    (f.Finalize verbose).T.log = f.T.log ∧
    f.T.log.data <+: (f.run Sprintf calls).T.log.data ∧
    ((NewFixture t).run Sprintf calls).T.log
      = String.join (calls.map (Call.entry Sprintf)) := by
  refine ⟨?_, step_log Sprintf f c, ?_, ?_, ?_⟩
  · rw [step_log, String.data_append]
    exact List.prefix_append _ _
  · simp only [Fixture.Finalize]
    rw [finalize_eq]
  · rw [run_log, String.data_append]
    exact List.prefix_append _ _
  · rw [run_log]
    apply String.ext
    simp [NewFixture, NewTWrapper]

/-- C10, at the failing input: `Log("x")` appends a tab, the text and a line
break, but `Logf("x")` appends a tab and the text alone, so that the entry of a
second `Logf` stands on the same line.  `Sprintf` renders a format without verbs
as it is. -/
theorem Logf_entry_not_terminated (Sprintf : String → List Value → String) (t : Handle)
    (hx : Sprintf "x" [] = "x") (hy : Sprintf "y" [] = "y") :
    ((NewTWrapper t).Log [Value.str "x"]).log = "\tx\n" ∧
    ((NewTWrapper t).Logf Sprintf "x" []).log = "\tx" ∧
    (((NewTWrapper t).Logf Sprintf "x" []).Logf Sprintf "y" []).log = "\tx\ty" := by
  simp only [TWrapper.Logf, TWrapper.Log, NewTWrapper, hx, hy]
  exact ⟨by decide, by decide, by decide⟩

theorem Logf_entry_not_terminated_witness :
    plainSprintf "x" [] = "x" ∧ plainSprintf "y" [] = "y" ∧
    (((NewTWrapper { failed := false }).Logf plainSprintf "x" []).Logf
      plainSprintf "y" []).log = "\tx\ty" :=
  ⟨rfl, rfl, (Logf_entry_not_terminated plainSprintf { failed := false } rfl rfl).2.2⟩

/-- C11: `Log` and `Logf` do not touch the wrapped handle.  In any adapter
state and for any arguments the record of calls on the handle stays as it was
(no `SkipNow`, `Fail`, `Failed` or `Log` is added), and so do the failure flag
and `skipped`; the buffer alone changes, by the entry appended. -/
theorem Log_Logf_leave_handle (Sprintf : String → List Value → String) (w : TWrapper)
    (message : String) (args : List Value) :
    ((w.Log args).trace = w.trace ∧ (w.Log args).T = w.T ∧
      (w.Log args).skipped = w.skipped ∧
      (w.Log args).log = w.log ++ ("\t" ++ Sprintln args)) ∧
    ((w.Logf Sprintf message args).trace = w.trace ∧
      (w.Logf Sprintf message args).T = w.T ∧
      (w.Logf Sprintf message args).skipped = w.skipped ∧
      (w.Logf Sprintf message args).log = w.log ++ ("\t" ++ Sprintf message args)) :=
  ⟨⟨rfl, rfl, rfl, rfl⟩, ⟨rfl, rfl, rfl, rfl⟩⟩

/-- C12: `skipped` starts false on a fresh adapter, and once it is true it stays
true: through every call (`Log`, `Logf`, `Error`, `Errorf`, `Skip`, `Skipf`,
`Fixture.So`), through `Finalize`, and so through any sequence of calls. -/
theorem skipped_never_reverts (Sprintf : String → List Value → String) (t : Handle)
    (f : Fixture) (c : Call) (verbose : Bool) (calls : List Call)
    (h : f.T.skipped = true) :
    (NewTWrapper t).skipped = false ∧
    (NewFixture t).T.skipped = false ∧
    (f.step Sprintf c).T.skipped = true ∧
    (f.Finalize verbose).T.skipped = true ∧
    (f.run Sprintf calls).T.skipped = true := by
  refine ⟨rfl, rfl, ?_, ?_, ?_⟩
  · rw [step_skipped, h, Bool.true_or]
  · simp only [Fixture.Finalize]
    rw [finalize_eq]
    exact h
  · rw [run_skipped, h, Bool.true_or]

theorem skipped_never_reverts_witness :
    ((NewFixture { failed := false }).step plainSprintf
      (Call.Skip [Value.str "later"])).T.skipped = true ∧
    (((NewFixture { failed := false }).step plainSprintf
      (Call.Skip [Value.str "later"])).step plainSprintf
        (Call.Error [Value.int 1])).T.skipped = true :=
  ⟨by decide, (skipped_never_reverts plainSprintf { failed := false }
    ((NewFixture { failed := false }).step plainSprintf (Call.Skip [Value.str "later"]))
    (Call.Error [Value.int 1]) false [] (by decide)).2.2.1⟩

/-- C13: over a handle whose flag `Fail` sets and `Failed` reads, the flag after
a call is the flag before it, or true when the call is `Error`, `Errorf` or a
`Fixture.So` whose assertion fails.  So no call clears it, and `Log`, `Logf`,
`Skip`, `Skipf` and a passing `So` leave it as it is; `Finalize` leaves it as it
is too. -/
theorem failed_set_only_by_mark_failed (Sprintf : String → List Value → String)
    (f : Fixture) (c : Call) (verbose : Bool) (calls : List Call) :
    (f.step Sprintf c).T.T.failed = (f.T.T.failed || (c.isError || c.isFailingSo)) ∧
    (f.Finalize verbose).T.T.failed = f.T.T.failed ∧
    (f.run Sprintf calls).T.T.failed
      = (f.T.T.failed || calls.any fun x => x.isError || x.isFailingSo) := by
  refine ⟨step_failed Sprintf f c, ?_, run_failed Sprintf f calls⟩
  simp only [Fixture.Finalize]
  rw [finalize_eq]

/-- C14: `Validate` returns normally, nothing written, exactly when the caller
was resolved, the checksum was computed without error and the digest is the
expected one.  In each of the three other cases the process ends with status 1
and `Validate` does not return; what was written before is the formatted
diagnostic of that case: the one for a caller that was not resolved, the one
with the text of the checksum error, the one with the two digests. -/
theorem Validate_returns_iff (Sprintf : String → List Value → String)
    (Caller : String × Bool) (Dir : String → String)
    (Checksum : String → String × Option String) (checksum : String) :
    (Validate Sprintf Caller Dir Checksum checksum = Except.ok ()
      ↔ (Caller.2 = true ∧ (Checksum (Dir Caller.1)).2 = none ∧
          checksum = (Checksum (Dir Caller.1)).1)) ∧
    (Caller.2 = false →
      Validate Sprintf Caller Dir Checksum checksum
        = Except.error
            { status := 1,
              diagnostic :=
                Sprintf "Unable to resolve the test file from runtime.Caller(...)." [] }) ∧
    (∀ text : String, Caller.2 = true → (Checksum (Dir Caller.1)).2 = some text →
      Validate Sprintf Caller Dir Checksum checksum
        = Except.error
            { status := 1,
              diagnostic :=
                Sprintf "Could not calculate checksum of current go files. Error: %s"
                  [Value.str text] }) ∧
    (Caller.2 = true → (Checksum (Dir Caller.1)).2 = none →
      checksum ≠ (Checksum (Dir Caller.1)).1 →
      Validate Sprintf Caller Dir Checksum checksum
        = Except.error
            { status := 1,
              diagnostic :=
                Sprintf "The checksum provided (%d) does not match the current file listing (%d). Please re-run the `gunit` command and try again."
                  [Value.str checksum, Value.str (Checksum (Dir Caller.1)).1] }) := by
  obtain ⟨file, ok⟩ := Caller
  cases ok with
  | false =>
    refine ⟨⟨fun h => ?_, fun h => ?_⟩, fun _ => rfl, fun _ h _ => ?_, fun h _ _ => ?_⟩
    · cases h
    · cases h.1
    · cases h
    · cases h
  | true =>
    cases hc : Checksum (Dir file) with
    | mk current err =>
      cases err with
      | some text =>
        have hv : Validate Sprintf (file, true) Dir Checksum checksum
            = Except.error
                { status := 1,
                  diagnostic :=
                    Sprintf "Could not calculate checksum of current go files. Error: %s"
                      [Value.str text] } := by
          simp [Validate, hc, exit, bind, Except.bind, pure, Except.pure]
        rw [hv]
        refine ⟨⟨fun h => ?_, fun h => ?_⟩, fun h => ?_, fun t _ ht => ?_, fun _ h _ => ?_⟩
        · cases h
        · cases h.2.1
        · cases h
        · cases ht
          rfl
        · cases h
      | none =>
        by_cases he : checksum = current
        · have hv : Validate Sprintf (file, true) Dir Checksum checksum
              = Except.ok () := by
            simp [Validate, hc, exit, bind, Except.bind, pure, Except.pure, he]
          rw [hv]
          refine ⟨⟨fun _ => ⟨rfl, rfl, he⟩, fun _ => rfl⟩, fun h => ?_, fun t _ ht => ?_,
            fun _ _ hne => ?_⟩
          · cases h
          · cases ht
          · exact absurd he hne
        · have hv : Validate Sprintf (file, true) Dir Checksum checksum
              = Except.error
                  { status := 1,
                    diagnostic :=
                      Sprintf "The checksum provided (%d) does not match the current file listing (%d). Please re-run the `gunit` command and try again."
                        [Value.str checksum, Value.str current] } := by
            simp [Validate, hc, exit, bind, Except.bind, pure, Except.pure, he]
          rw [hv]
          refine ⟨⟨fun h => ?_, fun h => ?_⟩, fun h => ?_, fun t _ ht => ?_, fun _ _ _ => rfl⟩
          · cases h
          · exact absurd h.2.2 he
          · cases h
          · cases ht

theorem Validate_returns_iff_witness :
    Validate plainSprintf ("pkg/generated_test.go", true) (fun _ => "pkg")
        (fun _ => ("abc", none)) "abc" = Except.ok () ∧
    Validate plainSprintf ("", false) (fun _ => "pkg") (fun _ => ("abc", none)) "abc"
      = Except.error
          { status := 1,
            diagnostic := "Unable to resolve the test file from runtime.Caller(...)." } ∧
    Validate plainSprintf ("pkg/generated_test.go", true) (fun _ => "pkg")
        (fun _ => ("", some "no such directory")) "abc"
      = Except.error
          { status := 1,
            diagnostic := "Could not calculate checksum of current go files. Error: %s" } ∧
    Validate plainSprintf ("pkg/generated_test.go", true) (fun _ => "pkg")
        (fun _ => ("abd", none)) "abc"
      = Except.error
          { status := 1,
            diagnostic := "The checksum provided (%d) does not match the current file listing (%d). Please re-run the `gunit` command and try again." } :=
  ⟨(Validate_returns_iff plainSprintf ("pkg/generated_test.go", true) (fun _ => "pkg")
      (fun _ => ("abc", none)) "abc").1.mpr ⟨rfl, rfl, rfl⟩,
    (Validate_returns_iff plainSprintf ("", false) (fun _ => "pkg")
      (fun _ => ("abc", none)) "abc").2.1 rfl,
    (Validate_returns_iff plainSprintf ("pkg/generated_test.go", true) (fun _ => "pkg")
      (fun _ => ("", some "no such directory")) "abc").2.2.1 "no such directory" rfl rfl,
    (Validate_returns_iff plainSprintf ("pkg/generated_test.go", true) (fun _ => "pkg")
      (fun _ => ("abd", none)) "abc").2.2.2 rfl rfl (by decide)⟩

/-- C15: when `finalize` flushes, because `verbose` is on or the handle reports
failed, what the sink receives is the buffer followed by one more line break.
On a fresh adapter with `verbose` on, where nothing was logged and nothing
failed, the sink therefore receives a single line break and not nothing. -/
theorem flush_is_buffer_and_line_break (verbose : Bool) (w : TWrapper) (t : Handle)
    (h : (verbose || w.T.failed) = true) :
    sinkWrites (w.finalize verbose).trace = sinkWrites w.trace ++ [w.log ++ "\n"] ∧
    sinkWrites ((NewTWrapper t).finalize true).trace = ["\n"] := by
  constructor
  · rw [sinkWrites_finalize, h, if_pos rfl]
  · rw [sinkWrites_finalize]
    simp only [Bool.true_or, if_true, NewTWrapper]
    rfl

theorem flush_is_buffer_and_line_break_witness :
    (true || (NewTWrapper { failed := false }).T.failed) = true ∧
    sinkWrites ((NewTWrapper { failed := false }).finalize true).trace
      = sinkWrites (NewTWrapper { failed := false }).trace
        ++ [(NewTWrapper { failed := false }).log ++ "\n"] :=
  ⟨by decide, (flush_is_buffer_and_line_break true (NewTWrapper { failed := false })
    { failed := false } (by decide)).1⟩

/-- C16: `finalize` uses nothing up and checks nothing: the buffer, `skipped` and
the failure flag are after it what they were before.  A second `finalize` on the
same adapter therefore does once more what the first did: the same write on the
sink, when there is one, and the same `SkipNow` call, when there is one. -/
theorem finalize_twice_repeats (verbose : Bool) (w : TWrapper) :
    (w.finalize verbose).log = w.log ∧
    (w.finalize verbose).skipped = w.skipped ∧
    (w.finalize verbose).T = w.T ∧
    ∃ effects : List Event,
      (w.finalize verbose).trace = w.trace ++ effects ∧
      ((w.finalize verbose).finalize verbose).trace = w.trace ++ effects ++ effects ∧
      sinkWrites effects = (if verbose || w.T.failed then [w.log ++ "\n"] else []) ∧
      skipNowCount effects = (if w.skipped then 1 else 0) := by
  refine ⟨by rw [finalize_eq], by rw [finalize_eq], by rw [finalize_eq], ?_⟩
  refine ⟨_, by rw [finalize_eq], ?_, ?_, ?_⟩
  · rw [finalize_eq, finalize_eq]
  · cases verbose <;> cases w.T.failed <;> cases w.skipped <;> simp [sinkWrites]
  · cases verbose <;> cases w.T.failed <;> cases w.skipped <;>
      simp [skipNowCount, List.count_cons]

end gunit
